import Mathlib

/-!
Verification development for the Apex commit-id synchronization script
(`pr_creation_script.py`).  The pure logic of the script — reference
extraction, PR resolution, per-commit analysis, aggregation, the
related_commits update loop, and the conflict check — is embedded as
executable Lean definitions.  External effects (git subprocesses, the
file system) are modelled by an explicit environment (`GitEnv`); the
resolver invocations and the final file write are recorded as data so
that claims about them can be stated.
-/

/-- Python whitespace for `str.strip`/`\s`: space, tab, newline, carriage
return, form feed, vertical tab. -/
def isPySpace (c : Char) : Bool :=
  c = ' ' ∨ c = '\t' ∨ c = '\n' ∨ c = '\r' ∨ c = '\x0b' ∨ c = '\x0c'

/-- Python `str.strip()`: remove leading and trailing whitespace. -/
def pyStrip (s : String) : String :=
  String.mk (((s.toList.dropWhile isPySpace).reverse.dropWhile isPySpace).reverse)

/-- Python `line.rstrip('\n')`: remove all trailing newline characters. -/
def rstripNewlines (s : String) : String :=
  String.mk ((s.toList.reverse.dropWhile (fun c => c = '\n')).reverse)

/-- Python `link.rstrip('>')`: remove all trailing `>` characters. -/
def rstripGt (s : String) : String :=
  String.mk ((s.toList.reverse.dropWhile (fun c => c = '>')).reverse)

/-- Python `s.startswith(pre)`. -/
def pyStartsWith (s pre : String) : Bool :=
  pre.toList.isPrefixOf s.toList

/-- Substring test on character lists (Python's `pat in s` for strings). -/
def listContains (pat : List Char) : List Char → Bool
  | [] => pat.isEmpty
  | c :: rest => pat.isPrefixOf (c :: rest) || listContains pat rest

/-- Python `pat in s` (substring containment). -/
def pyIn (pat s : String) : Bool :=
  listContains pat.toList s.toList

/-- Python `s.split('|')` (the separator is a single character, so the
semantics agree with splitting on every occurrence; `''.split('|') = ['']`). -/
def pySplitPipe (s : String) : List String :=
  splitPipeAux s.toList []
where
  splitPipeAux : List Char → List Char → List String
    | [], acc => [String.mk acc.reverse]
    | c :: rest, acc =>
      if c = '|' then String.mk acc.reverse :: splitPipeAux rest []
      else splitPipeAux rest (c :: acc)

/-- Python `list(set(xs))`.  CPython's set iteration order is
implementation defined (hash order); it is modelled here as
first-occurrence order.  No theorem below depends on the order of the
result, only on its membership and freedom from duplicates. -/
def pySetList [DecidableEq α] (l : List α) : List α :=
  l.foldl (fun acc x => if x ∈ acc then acc else acc ++ [x]) []

/-- Python `max(xs)` for a list of naturals (callers in the source guard
against the empty list, on which Python `max` would raise). -/
def pyMax (l : List Nat) : Nat :=
  l.foldl Nat.max 0

/-- Python `sorted(xs)` for integer lists: ascending, duplicates kept. -/
def pySorted (l : List Nat) : List Nat :=
  List.insertionSort (· ≤ ·) l

/-- Numeric value of a digit run (Python `int` on a decimal digit string). -/
def digitsVal (ds : List Char) : Nat :=
  ds.foldl (fun n c => n * 10 + (c.toNat - 48)) 0

/-- Scanner for the regex `#(\d+)` (re.findall semantics: left-to-right,
non-overlapping, each match resuming after its last digit).  The fuel
argument is the length of the remaining input — every step consumes at
least one character, so `scanPR` below never exhausts it; fuel keeps the
recursion structural so that concrete inputs evaluate by `decide`. -/
def scanPRAux : Nat → List Char → List Nat
  | 0, _ => []
  | _, [] => []
  | fuel + 1, c :: rest =>
    if c = '#' then
      let ds := rest.takeWhile Char.isDigit
      if ds = [] then scanPRAux fuel rest
      else digitsVal ds :: scanPRAux fuel (rest.dropWhile Char.isDigit)
    else scanPRAux fuel rest

/-- All matches of `#(\d+)` in a character list, in text order. -/
def scanPR (l : List Char) : List Nat :=
  scanPRAux l.length l

/-- `extract_pr_numbers` (source lines 626–632): find all `#(\d+)`
matches and return `sorted(...)` of their integer values.  The source
does not deduplicate. -/
def extract_pr_numbers (commit_message : String) : List Nat :=
  pySorted (scanPR commit_message.toList)

/-- `check_merge_conflicts` (source lines 512–528): `True` iff none of
the four conflict-marker strings occurs as a substring of the file
content.  (The exception branch of the source only covers I/O errors
while reading, which the embedding does not model.) -/
def check_merge_conflicts (content : String) : Bool :=
  !(pyIn "<<<<<<< Updated upstream" content || pyIn "<<<<<<< HEAD" content ||
    pyIn "=======" content || pyIn ">>>>>>> " content)

/-- `get_previous_apex_commit_from_file` (source lines 530–558), with the
file's raw lines (as by `readlines`, each line keeping its trailing
newline) as input; the file content seen by the conflict check is their
concatenation.  Returns the fifth pipe-delimited field of the stripped
first line when that line is non-empty, is not a comment, and has at
least five fields; `None` otherwise. -/
def get_previous_apex_commit_from_file (fileLines : List String) : Option String :=
  if check_merge_conflicts (String.join fileLines) then
    match fileLines with
    | [] => none
    | l₀ :: _ =>
      let firstLine := pyStrip l₀
      if firstLine ≠ "" ∧ pyStartsWith firstLine "#" = false then
        let parts := pySplitPipe firstLine
        if 5 ≤ parts.length then some (parts.getD 4 "") else none
      else none
  else none

/-! ### PR content parsing (`parse_pr_content`, source lines 733–792)

The regular-expression searches of `parse_pr_content` are embedded as
deterministic scanners over character lists.  Each scanner documents the
regex it models; `re.findall`/`re.sub` semantics (left-to-right,
non-overlapping, resuming after each match) are kept by passing the
remaining input after a match to the recursive call.  Where a scanner
must resume at a non-structural position, a fuel argument equal to the
input length keeps the recursion structural (every step consumes at
least one character, so the fuel never runs out). -/

/-- Case-insensitive literal match: `lit` is given lowercased; on success
returns the input after the literal. -/
def ciLit : List Char → List Char → Option (List Char)
  | [], s => some s
  | _ :: _, [] => none
  | p :: ps, c :: cs => if c.toLower = p then ciLit ps cs else none

/-- A character allowed inside the URL group `[^>\s<]+`. -/
def urlChar (c : Char) : Bool :=
  !(c = '>' || c = '<' || isPySpace c)

/-- Match `https?://[^>\s<]+` (case-insensitively, as under
`re.IGNORECASE`) at the head of `t`; returns the matched text in its
original case together with the rest of the input. -/
def tryUrlAt (t : List Char) : Option (List Char × List Char) :=
  match ciLit ['h', 't', 't', 'p'] t with
  | none => none
  | some r1 =>
    let sLen : Nat := match r1 with
      | c :: _ => if c.toLower = 's' then 1 else 0
      | [] => 0
    match r1.drop sLen with
    | ':' :: '/' :: '/' :: r3 =>
      let run := r3.takeWhile urlChar
      if run = [] then none
      else some (t.take (4 + sLen + 3 + run.length), r3.dropWhile urlChar)
    | _ => none

/-- Match one of the four fixes patterns at the head of `s`:
`kw\s*:\s*<?(https?://[^>\s<]+)` when `colonForm`, else
`kw\s+(https?://[^>\s<]+)` (all under `re.IGNORECASE`). -/
def tryFixAt (kw : List Char) (colonForm : Bool) (s : List Char) : Option (List Char × List Char) :=
  match ciLit kw s with
  | none => none
  | some after1 =>
    if colonForm then
      match after1.dropWhile isPySpace with
      | ':' :: r =>
        let r2 := r.dropWhile isPySpace
        let r3 := match r2 with
          | '<' :: rr => rr
          | _ => r2
        tryUrlAt r3
      | _ => none
    else
      match after1 with
      | c :: _ =>
        if isPySpace c then tryUrlAt (after1.dropWhile isPySpace) else none
      | [] => none

/-- `re.findall` for one fixes pattern: scan left to right, resume after
each match.  Fuel is the input length. -/
def scanFixAux (kw : List Char) (colonForm : Bool) : Nat → List Char → List (List Char)
  | 0, _ => []
  | _, [] => []
  | fuel + 1, c :: rest =>
    match tryFixAt kw colonForm (c :: rest) with
    | some (link, remaining) => link :: scanFixAux kw colonForm fuel remaining
    | none => scanFixAux kw colonForm fuel rest

/-- All captures of one fixes pattern in `content`. -/
def scanFix (kw : String) (colonForm : Bool) (content : String) : List String :=
  (scanFixAux kw.toList colonForm content.toList.length content.toList).map String.mk

/-- The four `fixes_patterns` of `parse_pr_content`, applied in source
order, before the trailing-`>` strip and `list(set(...))`. -/
def rawFixesLinks (content : String) : List String :=
  scanFix "fixes" true content ++ scanFix "fixed" true content ++
  scanFix "fixes" false content ++ scanFix "fixed" false content

/-- `extractFixLinks` as performed by `parse_pr_content`:
`list(set([link.rstrip('>') for link in fixes_links]))`. -/
def extractFixLinks (content : String) : List String :=
  pySetList ((rawFixesLinks content).map rstripGt)

/-- Title pattern 1, `'# ([^#\n]+) #' + str(pr_number)`, matched at the
head of `s`; returns the group.  The group cannot contain `#`, so the
greedy run up to the first `#`/newline must end in the literal space
just before `#<pr_number>`. -/
def tryTitle1At (prDigits : List Char) (s : List Char) : Option (List Char) :=
  match s with
  | '#' :: ' ' :: after =>
    let run := after.takeWhile (fun c => !(c = '#' || c = '\n'))
    match after.dropWhile (fun c => !(c = '#' || c = '\n')) with
    | '#' :: t =>
      if prDigits.isPrefixOf t ∧ 2 ≤ run.length ∧ run.getLast? = some ' ' then
        some run.dropLast
      else none
    | _ => none
  | _ => none

/-- First match of title pattern 1 anywhere in the input. -/
def findTitle1 (prDigits : List Char) : List Char → Option (List Char)
  | [] => none
  | c :: rest =>
    match tryTitle1At prDigits (c :: rest) with
    | some g => some g
    | none => findTitle1 prDigits rest

/-- Title pattern 2, `'# ([^#\n]+)'`, matched at the head of `s`. -/
def tryTitle2At (s : List Char) : Option (List Char) :=
  match s with
  | '#' :: ' ' :: after =>
    let run := after.takeWhile (fun c => !(c = '#' || c = '\n'))
    if run = [] then none else some run
  | _ => none

/-- First match of title pattern 2 anywhere in the input. -/
def findTitle2 : List Char → Option (List Char)
  | [] => none
  | c :: rest =>
    match tryTitle2At (c :: rest) with
    | some g => some g
    | none => findTitle2 rest

/-- Title pattern 3, `'<title[^>]*>([^<]+)</title>'` (case-insensitive),
matched at the head of `s`. -/
def tryTitle3At (s : List Char) : Option (List Char) :=
  match ciLit ['<', 't', 'i', 't', 'l', 'e'] s with
  | none => none
  | some r1 =>
    match r1.dropWhile (fun c => c ≠ '>') with
    | '>' :: r2 =>
      let g := r2.takeWhile (fun c => c ≠ '<')
      if g = [] then none
      else
        match ciLit ['<', '/', 't', 'i', 't', 'l', 'e', '>'] (r2.dropWhile (fun c => c ≠ '<')) with
        | some _ => some g
        | none => none
    | _ => none

/-- First match of title pattern 3 anywhere in the input. -/
def findTitle3 : List Char → Option (List Char)
  | [] => none
  | c :: rest =>
    match tryTitle3At (c :: rest) with
    | some g => some g
    | none => findTitle3 rest

/-- The title loop of `parse_pr_content`: first pattern with a match
wins, the first match is stripped; empty string when nothing matches. -/
def extractTitle (content : String) (prNumber : Nat) : String :=
  let cs := content.toList
  match findTitle1 (toString prNumber).toList cs with
  | some g => pyStrip (String.mk g)
  | none =>
    match findTitle2 cs with
    | some g => pyStrip (String.mk g)
    | none =>
      match findTitle3 cs with
      | some g => pyStrip (String.mk g)
      | none => ""

/-- The lookahead `(?=fixes\s*:|Cherry-picked|$)` of the description
pattern, tested at the head of `s` (`$` without `re.MULTILINE` matches
at the very end or just before a final newline). -/
def descLookaheadAt (s : List Char) : Bool :=
  (match ciLit ['f', 'i', 'x', 'e', 's'] s with
   | some r =>
     match r.dropWhile isPySpace with
     | ':' :: _ => true
     | _ => false
   | none => false) ||
  (ciLit ['c', 'h', 'e', 'r', 'r', 'y', '-', 'p', 'i', 'c', 'k', 'e', 'd'] s).isSome ||
  s = ['\n']

/-- Length taken by the non-greedy `.*?` (under `re.DOTALL`) before the
lookahead first holds. -/
def descLen : List Char → Nat
  | [] => 0
  | c :: rest => if descLookaheadAt (c :: rest) then 0 else 1 + descLen rest

/-- First position matching `reset parameters for` (case-insensitively);
returns the suffix starting there. -/
def findResetAt : List Char → Option (List Char)
  | [] => none
  | c :: rest =>
    if (ciLit "reset parameters for".toList (c :: rest)).isSome then some (c :: rest)
    else findResetAt rest

/-- `re.sub(r'\s+', ' ', s)`: collapse every whitespace run to one space
(the flag records whether the previous character was whitespace). -/
def collapseWSAux : Bool → List Char → List Char
  | _, [] => []
  | inRun, c :: rest =>
    if isPySpace c then
      if inRun then collapseWSAux true rest else ' ' :: collapseWSAux true rest
    else c :: collapseWSAux false rest

/-- Match one code block (the regex is three backticks, then `[^`]*`,
then three backticks) at the head of `s`; returns the input after it. -/
def tryCodeBlockAt (s : List Char) : Option (List Char) :=
  let bq := Char.ofNat 96
  match s with
  | c1 :: c2 :: c3 :: r =>
    if c1 = bq ∧ c2 = bq ∧ c3 = bq then
      match r.dropWhile (fun c => c ≠ bq) with
      | d1 :: d2 :: d3 :: r2 =>
        if d1 = bq ∧ d2 = bq ∧ d3 = bq then some r2 else none
      | _ => none
    else none
  | _ => none

/-- `re.sub` removing every code block, scanning left to right. -/
def removeCodeAux : Nat → List Char → List Char
  | 0, s => s
  | _, [] => []
  | fuel + 1, c :: rest =>
    match tryCodeBlockAt (c :: rest) with
    | some remaining => removeCodeAux fuel remaining
    | none => c :: removeCodeAux fuel rest

/-- Python `s.replace(pat, rep)`: every non-overlapping occurrence, left
to right (`pat` is never empty at the call sites). -/
def pyReplaceAux (pat rep : List Char) : Nat → List Char → List Char
  | 0, s => s
  | _, [] => []
  | fuel + 1, c :: rest =>
    if pat.isPrefixOf (c :: rest) then
      rep ++ pyReplaceAux pat rep fuel ((c :: rest).drop pat.length)
    else c :: pyReplaceAux pat rep fuel rest

/-- Python `s.replace(pat, rep)` on strings. -/
def pyReplace (pat rep s : String) : String :=
  String.mk (pyReplaceAux pat.toList rep.toList s.toList.length s.toList)

/-- The description extraction and cleanup of `parse_pr_content`:
`re.search(r'reset parameters for.*?(?=fixes\s*:|Cherry-picked|$)', ...)`
followed by whitespace collapsing, code-block removal and the two fixed
replacements. -/
def extractDescription (content : String) : String :=
  match findResetAt content.toList with
  | none => ""
  | some s0 =>
    let raw := (pyStrip (String.mk (s0.take (20 + descLen (s0.drop 20))))).toList
    let collapsed := collapseWSAux false raw
    let noCode := removeCodeAux collapsed.length collapsed
    pyReplace "Ran the unit tests:" "\n\nRan the unit tests:"
      (pyReplace "tested with docker" "\n\nTested with docker" (String.mk noCode))

/-- `create_pr_url` (source lines 721–723). -/
def create_pr_url (prNumber : Nat) : String :=
  "https://github.com/ROCm/apex/pull/" ++ toString prNumber

/-- Result of `parse_pr_content` (source lines 733–792): the dict
`{title, description, fixes_links, url}`. -/
structure ParsedContent where
  title : String
  description : String
  fixesLinks : List String
  url : String
deriving DecidableEq

/-- `parse_pr_content` itself (its `except` branch is unreachable in the
pure embedding). -/
def parse_pr_content (webContent : String) (prNumber : Nat) : ParsedContent :=
  { title := extractTitle webContent prNumber
    description := extractDescription webContent
    fixesLinks := extractFixLinks webContent
    url := create_pr_url prNumber }

/-! ### PR resolution (`get_pr_details` is dead code; the live resolver is
`fetch_and_parse_pr_details`, source lines 1103–1189) -/

/-- The dict produced for `pr_result["details"]`: the parsed content plus
the `pr_number` key added by `fetch_and_parse_pr_details` (also present
on the mock details). -/
structure PRDetails where
  title : String
  description : String
  fixesLinks : List String
  url : String
  prNumber : Nat
deriving DecidableEq

/-- The dict returned by `fetch_and_parse_pr_details`.  `details = none`
models the absence of the `"details"` key (the failure dict of the
`except` branch, unreachable in the pure embedding). -/
structure FetchResult where
  success : Bool
  prNumber : Nat
  url : String
  details : Option PRDetails
  message : String
deriving DecidableEq

/-- The hardcoded page content used for PR 269 (source lines 1112–1127). -/
def content269 : String :=
  "\n# Fix test_gelu unit test #269 \n\nreset parameters for FusedDenseGeluDense similar to FusedDense to make the test_gelu pass\n\nRan the unit tests:\npython tests/L0/run_fused_dense/test_gelu.py \nAPEX_TEST_WITH_ROCM=1 APEX_SKIP_FLAKY_TEST=1 python run_test.py --include run_fused_dense \n\ntested with docker  \nregistry-sc-harbor.amd.com/framework/compute-rocm-dkms-no-npi-hipclang:16456_ubuntu22.04_py3.10_pytorch_lw_rocm7.0_internal_testing_3d404259\n\nfixes : https://ontrack-internal.amd.com/browse/SWDEV-540029\n\nCherry-picked to release/1.8.0 branch via #270\n"

/-- The hardcoded page content used for PR 270 (source lines 1144–1150). -/
def content270 : String :=
  "\n# [AUTOGENERATED] [release/1.8.0] Fix test_gelu unit test #270\n\nreset parameters for FusedDenseGeluDense similar to FusedDense to make the test_gelu pass (#269)\n\nCherry-picked from master branch\n"

/-- `fetch_and_parse_pr_details` (source lines 1103–1189): PR numbers 269
and 270 are answered from the hardcoded contents above; every other
number receives the fabricated mock details of the `else` branch.  No
code-host request is ever made. -/
def fetch_and_parse_pr_details (prNumber : Nat) : FetchResult :=
  let prUrl := create_pr_url prNumber
  if prNumber = 269 then
    let p := parse_pr_content content269 prNumber
    { success := true, prNumber := prNumber, url := prUrl
      details := some { title := p.title, description := p.description,
                        fixesLinks := p.fixesLinks, url := p.url, prNumber := prNumber }
      message := "PR #" ++ toString prNumber ++ " details extracted and displayed" }
  else if prNumber = 270 then
    let p := parse_pr_content content270 prNumber
    { success := true, prNumber := prNumber, url := prUrl
      details := some { title := p.title, description := p.description,
                        fixesLinks := p.fixesLinks, url := p.url, prNumber := prNumber }
      message := "PR #" ++ toString prNumber ++ " details extracted and displayed" }
  else
    { success := true, prNumber := prNumber, url := prUrl
      details := some { title := "Mock PR #" ++ toString prNumber ++ " Title"
                        description := "Mock description for PR #" ++ toString prNumber
                        fixesLinks := ["https://example.com/issue-" ++ toString prNumber]
                        url := prUrl, prNumber := prNumber }
      message := "PR #" ++ toString prNumber ++ " ready for fetching (mock data provided)" }

/-! ### Per-commit analysis (`analyze_commit_and_prs`, source lines 651–719) -/

/-- The dict built by `analyze_commit_and_prs` for one commit.  The
failure dicts of the source omit the `commit_message`/`author`/`date`
keys; consumers read them with a default of `""`, which is how the
omission is modelled. -/
structure CommitResult where
  commitId : String
  commitMessage : String
  author : String
  date : String
  prsProcessed : List Nat
  fixesLinks : List String
  descriptions : List String
deriving DecidableEq

/-- The `for pr_num in sorted(pr_numbers)` loop of
`analyze_commit_and_prs` (source lines 696–711): each PR is fetched in
turn; on success its number is appended to `prs_processed`, a non-empty
`fixes_links` list is appended, and a non-empty description is recorded
as `PR #<n>: <description>`. -/
def processPRs : List Nat → CommitResult → CommitResult
  | [], cr => cr
  | prNum :: rest, cr =>
    let prResult := fetch_and_parse_pr_details prNum
    let cr' :=
      if prResult.success then
        match prResult.details with
        | some prDetails =>
          let cr1 := { cr with prsProcessed := cr.prsProcessed ++ [prNum] }
          let cr2 :=
            if prDetails.fixesLinks ≠ [] then
              { cr1 with fixesLinks := cr1.fixesLinks ++ prDetails.fixesLinks }
            else cr1
          if prDetails.description ≠ "" then
            { cr2 with descriptions :=
                cr2.descriptions ++ ["PR #" ++ toString prNum ++ ": " ++ prDetails.description] }
          else cr2
        | none => cr
      else cr
    processPRs rest cr'

/-- `analyze_commit_and_prs` (source lines 651–719), with the results of
the two git queries (`get_commit_details`, `get_full_commit_message`)
supplied by the environment (`none` models a failed subprocess; the
source also treats an empty string as a failure, Python falsiness).
The second component of the result records, in order, every PR number
passed to `fetch_and_parse_pr_details` during the call — the resolver
invocation trace, used by claims about memoization. -/
def analyze_commit_and_prs (detailsOpt fullMessageOpt : Option String)
    (commitHash : String) : CommitResult × List Nat :=
  let failRes : CommitResult :=
    { commitId := commitHash, commitMessage := "", author := "", date := "",
      prsProcessed := [], fixesLinks := [], descriptions := [] }
  match detailsOpt, fullMessageOpt with
  | some commitDetails, some fullMessage =>
    if commitDetails = "" ∨ fullMessage = "" then (failRes, [])
    else
      let parts := pySplitPipe commitDetails
      if 4 ≤ parts.length then
        let cr0 : CommitResult :=
          { commitId := parts.getD 0 "", commitMessage := fullMessage,
            author := parts.getD 1 "", date := parts.getD 2 "",
            prsProcessed := [], fixesLinks := [], descriptions := [] }
        let prNumbers := extract_pr_numbers fullMessage
        (processPRs (pySorted prNumbers) cr0, pySorted prNumbers)
      else (failRes, [])
  | _, _ => (failRes, [])

/-! ### The related_commits update loop (source lines 1052–1080) -/

/-- The body of the update loop for the line at index `i`: blank lines
pass through; a line among the first two with at least five
pipe-delimited fields has its fifth field replaced when it differs from
`cur` (the rewritten line regains a single trailing newline); every
other line passes through.  The second component is the contribution to
`updated_count`. -/
def transformLine (i : Nat) (cur line : String) : String × Nat :=
  let original := rstripNewlines line
  if pyStrip original = "" then (line, 0)
  else
    let parts := pySplitPipe original
    if i < 2 ∧ 5 ≤ parts.length then
      if parts.getD 4 "" ≠ cur then
        (String.intercalate "|" (parts.set 4 cur) ++ "\n", 1)
      else (line, 0)
    else (line, 0)

/-- The update loop itself: `updated_lines` and `updated_count` for the
lines starting at index `i`. -/
def updateLines (i : Nat) (lines : List String) (cur : String) : List String × Nat :=
  match lines with
  | [] => ([], 0)
  | line :: rest =>
    let t := transformLine i cur line
    let r := updateLines (i + 1) rest cur
    (t.1 :: r.1, t.2 + r.2)

/-! ### The orchestrating function (`update_related_commits_file`,
source lines 928–1101) -/

/-- The aggregation loop of `update_related_commits_file` (source lines
999–1003): fixes links from all commit results, first occurrence kept. -/
def addFixesLinks (acc : List String) (links : List String) : List String :=
  links.foldl (fun a l => if l ∈ a then a else a ++ [l]) acc

/-- `all_fixes_links` over a list of commit results. -/
def collectFixesLinks (results : List CommitResult) : List String :=
  results.foldl (fun a r => addFixesLinks a r.fixesLinks) []

/-- The environment of one synchronization run: the related_commits
file's raw lines (each keeping its trailing newline, as `readlines`
yields them; the file is assumed to exist), the current Apex commit
(`get_current_commit_hash`, `none` on subprocess failure), the commit
range (`get_commit_list_since_commit`), and the two per-commit git
queries. -/
structure GitEnv where
  fileLines : List String
  currentApexCommit : Option String
  commitList : List String
  commitDetails : String → Option String
  commitFullMessage : String → Option String

/-- The observable outcome of `update_related_commits_file`.  The first
six fields model the returned dict (a missing key is modelled by its
consumer's default, the empty list; the plain `return False` of the
source is modelled by `success := false`).  `writtenLines` records the
file write performed in actual-update mode (`none`: the file was left
untouched), and `resolverTrace` records every invocation of
`fetch_and_parse_pr_details` in order — both model effects, not dict
entries. -/
structure RunResult where
  success : Bool
  prsToFetch : List Nat
  allCommitResults : List CommitResult
  allFixesLinks : List String
  allDescriptions : List String
  updatedCount : Nat
  writtenLines : Option (List String)
  resolverTrace : List Nat
deriving DecidableEq

/-- The outcome of every `return False` / `return None`-driven failure
path of `update_related_commits_file`. -/
def failedRun : RunResult :=
  { success := false, prsToFetch := [], allCommitResults := [], allFixesLinks := [],
    allDescriptions := [], updatedCount := 0, writtenLines := none, resolverTrace := [] }

/-- The early return when the recorded and current commits already agree
(source lines 1029–1032). -/
def upToDateRun : RunResult :=
  { success := true, prsToFetch := [], allCommitResults := [], allFixesLinks := [],
    allDescriptions := [], updatedCount := 0, writtenLines := none, resolverTrace := [] }

/-- `update_related_commits_file` (source lines 928–1101).  The flow of
the source: read the previous commit from the file (halting on merge
conflicts or a missing/empty field), read the current commit, return
early when they agree; otherwise analyze every commit in the range,
aggregate links/descriptions/PR numbers, run the update loop over the
file's lines, return early (with an empty `prs_to_fetch`) when nothing
changed, and otherwise write the file only when `enable_actual_update`
is set.  `show_related_commits_status` and the various progress prints
have no effect on the result and are not modelled; neither are I/O
errors while re-reading or writing the file. -/
def update_related_commits_file (env : GitEnv) (enableActualUpdate : Bool) : RunResult :=
  match get_previous_apex_commit_from_file env.fileLines with
  | none => failedRun
  | some previous =>
    if previous = "" then failedRun
    else
      match env.currentApexCommit with
      | none => failedRun
      | some current =>
        if current = "" then failedRun
        else if previous = current then upToDateRun
        else
          let analyzed := env.commitList.map
            (fun h => analyze_commit_and_prs (env.commitDetails h) (env.commitFullMessage h) h)
          let results := analyzed.map Prod.fst
          let trace := (analyzed.map Prod.snd).flatten
          let allFixesLinks := collectFixesLinks results
          let allDescriptions := (results.map CommitResult.descriptions).flatten
          let allPrsProcessed := (results.map CommitResult.prsProcessed).flatten
          let prsToFetch := pySetList allPrsProcessed
          let upd := updateLines 0 env.fileLines current
          if upd.2 = 0 then
            { success := true, prsToFetch := [], allCommitResults := [], allFixesLinks := [],
              allDescriptions := [], updatedCount := 0, writtenLines := none,
              resolverTrace := trace }
          else
            { success := true, prsToFetch := prsToFetch, allCommitResults := results,
              allFixesLinks := allFixesLinks, allDescriptions := allDescriptions,
              updatedCount := upd.2,
              writtenLines := if enableActualUpdate then some upd.1 else none,
              resolverTrace := trace }

/-! ### Description/commit-message composition -/

/-- The commit-info dict expected by `format_commit_description` (keys
`commit_hash`, `author`, `date`, `subject`, `full_message`). -/
structure FormatCommitInfo where
  commitHash : String
  author : String
  date : String
  subject : String
  fullMessage : String
deriving DecidableEq

/-- The six lines appended per commit by `format_commit_description`
(enumeration starts at 1; the hash is truncated to 12 characters). -/
def commitEntryLines (i : Nat) (ci : FormatCommitInfo) : List String :=
  [toString i ++ ". Commit: " ++ String.mk (ci.commitHash.toList.take 12),
   "   Author: " ++ ci.author,
   "   Date: " ++ ci.date,
   "   Subject: " ++ ci.subject,
   "   Full Message: " ++ ci.fullMessage,
   ""]

/-- Section 1 of `format_commit_description` (source lines 484–494). -/
def formatCommitSection (allCommitResults : List FormatCommitInfo) : List String :=
  if allCommitResults = [] then []
  else
    "FULL COMMIT MESSAGES:" :: String.mk (List.replicate 50 '=') ::
      (allCommitResults.enum.map (fun p => commitEntryLines (p.1 + 1) p.2)).flatten

/-- Section 2 of `format_commit_description` (source lines 496–501):
present only when the candidate set is non-empty; `max` over it. -/
def formatBiggestSection (prsToFetch : List Nat) : List String :=
  if prsToFetch = [] then []
  else ["BIGGEST PR: " ++ create_pr_url (pyMax prsToFetch), ""]

/-- Section 3 of `format_commit_description` (source lines 503–508):
deduplicated fixes links as bullets. -/
def formatFixesSection (allFixesLinks : List String) : List String :=
  if allFixesLinks = [] then []
  else "Fixes:" :: (pySetList allFixesLinks).map (fun l => "- " ++ l)

/-- `format_commit_description` (source lines 480–510): the three
sections appended in order and joined with newlines. -/
def format_commit_description (allCommitResults : List FormatCommitInfo)
    (allFixesLinks : List String) (prsToFetch : List Nat) : String :=
  String.intercalate "\n"
    (formatCommitSection allCommitResults ++ formatBiggestSection prsToFetch ++
     formatFixesSection allFixesLinks)

/-- The commit-message builder of `commit_changes` for the dict form
(source lines 295–317): title, blank line, then one section per
non-empty list, each as bullets (the first two sections are followed by
a blank line). -/
def build_commit_message (commitTitle : String)
    (commitMessages largestPrIds fixesLinks : List String) : String :=
  String.intercalate "\n"
    ([commitTitle, ""] ++
     (if commitMessages = [] then []
      else "Commit Messages:" :: commitMessages.map (fun m => "- " ++ m) ++ [""]) ++
     (if largestPrIds = [] then []
      else "PRs:" :: largestPrIds.map (fun p => "- " ++ p) ++ [""]) ++
     (if fixesLinks = [] then []
      else "Fixes:" :: fixesLinks.map (fun l => "- " ++ l)))

/-- The `largest_pr_ids` computation of `main` (source lines 1261–1267):
empty when no PR was collected, otherwise the URL of the maximum over
the deduplicated candidate set. -/
def mainLargestPrIds (prsToFetch : List Nat) : List String :=
  if prsToFetch = [] then []
  else ["https://github.com/ROCm/apex/pull/" ++ toString (pyMax (pySetList prsToFetch))]

/-! ### Specification-side helpers and concrete environments -/

/-- The fixes links one resolver call contributes to a commit result
(specification-side; compared against `processPRs` by theorem). -/
def prContribution (prNum : Nat) : List String :=
  let r := fetch_and_parse_pr_details prNum
  if r.success then
    match r.details with
    | some d => d.fixesLinks
    | none => []
  else []

/-- The end-to-end scenario of the specification: one commit whose
message contains a direct fixes link and references PR 42. -/
def envScenario : GitEnv :=
  { fileLines := ["apex|proj|rel|rel|OLDCOMMIT\n"]
    currentApexCommit := some "NEWCOMMIT"
    commitList := ["deadbeef"]
    commitDetails := fun h => some (h ++ "|alice|2024-05-01|fix thing (#42)")
    commitFullMessage := fun _ =>
      some "fix thing (#42)\nfixes: https://tracker/ISSUE-1" }

/-- Two commits both referencing PR 42 (for the memoization claim). -/
def envTwoCommits : GitEnv :=
  { fileLines := ["apex|proj|rel|rel|OLDCOMMIT\n"]
    currentApexCommit := some "NEWCOMMIT"
    commitList := ["c1", "c2"]
    commitDetails := fun h => some (h ++ "|alice|2024-05-01|subject")
    commitFullMessage := fun _ => some "see #42" }

/-- A drifted environment with no PR references (for the dry-run/apply
claim's witness). -/
def envDrifted : GitEnv :=
  { fileLines := ["apex|proj|rel|rel|OLDCOMMIT\n", "other|p|r|r|K\n"]
    currentApexCommit := some "NEWCOMMIT"
    commitList := ["c1"]
    commitDetails := fun h => some (h ++ "|bob|2024-06-01|plain subject")
    commitFullMessage := fun _ => some "plain message" }

/-- A record file whose second line is exactly the HEAD conflict marker
(for the conflict-halt claim's witness). -/
def envConflicted : GitEnv :=
  { fileLines := ["apex|proj|rel|rel|OLDCOMMIT\n", "<<<<<<< HEAD\n"]
    currentApexCommit := some "NEWCOMMIT"
    commitList := []
    commitDetails := fun _ => none
    commitFullMessage := fun _ => none }

/-! ### Helper lemmas -/

theorem foldl_append_data (L : List String) :
    ∀ acc : String, (L.foldl (· ++ ·) acc).data = acc.data ++ (L.map String.data).flatten := by
  induction L with
  | nil => intro acc; simp
  | cons a L ih =>
    intro acc
    simp only [List.foldl_cons, ih (acc ++ a), String.data_append, List.map_cons,
      List.flatten_cons, List.append_assoc]

theorem join_data (L : List String) :
    (String.join L).data = (L.map String.data).flatten := by
  have h := foldl_append_data L ""
  simpa [String.join] using h

theorem data_infix_of_mem_join {l : String} {L : List String} (h : l ∈ L) :
    l.data <:+: (String.join L).data := by
  rw [join_data]
  exact List.infix_of_mem_flatten (List.mem_map_of_mem String.data h)

theorem listContains_complete :
    ∀ {pat l : List Char}, pat <:+: l → listContains pat l = true := by
  intro pat l
  induction l with
  | nil =>
    intro h
    rw [List.infix_nil] at h
    simp [h, listContains]
  | cons c t ih =>
    intro h
    obtain ⟨u, v, huv⟩ := h
    match u, huv with
    | [], huv =>
      have hpre : pat <+: c :: t := ⟨v, huv⟩
      simp [listContains, List.isPrefixOf_iff_prefix, hpre]
    | c' :: u', huv =>
      have : pat <:+: t := ⟨u', v, by simpa using congrArg List.tail huv⟩
      simp [listContains, ih this]

theorem pyIn_of_line_mem {l marker : String} {L : List String}
    (hmem : l ∈ L) (hpre : marker.data <+: l.data) :
    pyIn marker (String.join L) = true :=
  listContains_complete (hpre.isInfix.trans (data_infix_of_mem_join hmem))

theorem addFixesLinks_nodup (links : List String) :
    ∀ acc : List String, acc.Nodup → (addFixesLinks acc links).Nodup := by
  induction links with
  | nil => intro acc h; exact h
  | cons l ls ih =>
    intro acc h
    simp only [addFixesLinks, List.foldl_cons]
    by_cases hmem : l ∈ acc
    · simpa [addFixesLinks, hmem] using ih acc h
    · have : (acc ++ [l]).Nodup := by
        simp [List.nodup_append, h, hmem]
      simpa [addFixesLinks, hmem] using ih (acc ++ [l]) this

theorem mem_addFixesLinks (links : List String) :
    ∀ (acc : List String) (x : String),
      x ∈ addFixesLinks acc links ↔ x ∈ acc ∨ x ∈ links := by
  induction links with
  | nil => intro acc x; simp [addFixesLinks]
  | cons l ls ih =>
    intro acc x
    simp only [addFixesLinks, List.foldl_cons]
    by_cases hmem : l ∈ acc
    · rw [if_pos hmem]
      have := ih acc x
      simp only [addFixesLinks] at this
      rw [this]
      constructor
      · rintro (h | h)
        · exact Or.inl h
        · exact Or.inr (List.mem_cons_of_mem _ h)
      · rintro (h | h)
        · exact Or.inl h
        · rcases List.mem_cons.mp h with rfl | h
          · exact Or.inl hmem
          · exact Or.inr h
    · rw [if_neg hmem]
      have := ih (acc ++ [l]) x
      simp only [addFixesLinks] at this
      rw [this]
      simp only [List.mem_append, List.mem_singleton, List.mem_cons]
      tauto

theorem collectFixesLinks_nodup (results : List CommitResult) :
    (collectFixesLinks results).Nodup := by
  suffices h : ∀ acc : List String, acc.Nodup →
      (results.foldl (fun a r => addFixesLinks a r.fixesLinks) acc).Nodup by
    exact h [] List.nodup_nil
  induction results with
  | nil => intro acc h; exact h
  | cons r rs ih =>
    intro acc h
    exact ih _ (addFixesLinks_nodup r.fixesLinks acc h)

theorem mem_collectFixesLinks (results : List CommitResult) (x : String) :
    x ∈ collectFixesLinks results ↔ ∃ r, r ∈ results ∧ x ∈ r.fixesLinks := by
  suffices h : ∀ acc : List String,
      (x ∈ results.foldl (fun a r => addFixesLinks a r.fixesLinks) acc ↔
        x ∈ acc ∨ ∃ r, r ∈ results ∧ x ∈ r.fixesLinks) by
    have := h []
    simpa [collectFixesLinks] using this
  induction results with
  | nil => intro acc; simp
  | cons r rs ih =>
    intro acc
    simp only [List.foldl_cons]
    rw [ih (addFixesLinks acc r.fixesLinks), mem_addFixesLinks]
    constructor
    · rintro ((h | h) | ⟨r', hr', hx⟩)
      · exact Or.inl h
      · exact Or.inr ⟨r, List.mem_cons_self _ _, h⟩
      · exact Or.inr ⟨r', List.mem_cons_of_mem _ hr', hx⟩
    · rintro (h | ⟨r', hr', hx⟩)
      · exact Or.inl (Or.inl h)
      · rcases List.mem_cons.mp hr' with rfl | hr'
        · exact Or.inl (Or.inr hx)
        · exact Or.inr ⟨r', hr', hx⟩

theorem processPRs_fixesLinks (prs : List Nat) :
    ∀ cr : CommitResult,
      (processPRs prs cr).fixesLinks = cr.fixesLinks ++ (prs.map prContribution).flatten := by
  induction prs with
  | nil => intro cr; simp [processPRs]
  | cons p ps ih =>
    intro cr
    simp only [processPRs, List.map_cons, List.flatten_cons]
    by_cases hs : (fetch_and_parse_pr_details p).success
    · cases hd : (fetch_and_parse_pr_details p).details with
      | none =>
        simp [hs, hd, ih, prContribution]
      | some d =>
        by_cases hfl : d.fixesLinks = []
        · by_cases hdesc : d.description = ""
          · simp [hs, hd, hfl, hdesc, ih, prContribution]
          · simp [hs, hd, hfl, hdesc, ih, prContribution]
        · by_cases hdesc : d.description = ""
          · simp [hs, hd, hfl, hdesc, ih, prContribution, List.append_assoc]
          · simp [hs, hd, hfl, hdesc, ih, prContribution, List.append_assoc]
    · simp [hs, ih, prContribution]

theorem foldl_max_init_le (l : List Nat) : ∀ a : Nat, a ≤ l.foldl Nat.max a := by
  induction l with
  | nil => intro a; simp
  | cons b t ih =>
    intro a
    exact le_trans (Nat.le_max_left a b) (ih (Nat.max a b))

theorem le_foldl_max (l : List Nat) :
    ∀ (a x : Nat), x ∈ l → x ≤ l.foldl Nat.max a := by
  induction l with
  | nil => intro a x h; cases h
  | cons b t ih =>
    intro a x h
    rcases List.mem_cons.mp h with rfl | h
    · exact le_trans (Nat.le_max_right a x) (foldl_max_init_le t (Nat.max a x))
    · exact ih (Nat.max a b) x h

theorem foldl_max_mem (l : List Nat) :
    ∀ a : Nat, l.foldl Nat.max a = a ∨ l.foldl Nat.max a ∈ l := by
  induction l with
  | nil => intro a; exact Or.inl rfl
  | cons b t ih =>
    intro a
    rcases ih (Nat.max a b) with h | h
    · rcases Nat.le_total a b with hab | hba
      · have hm : Nat.max a b = b := Nat.max_eq_right hab
        refine Or.inr ?_
        rw [List.foldl_cons, h, hm]
        exact List.mem_cons_self _ _
      · have hm : Nat.max a b = a := Nat.max_eq_left hba
        refine Or.inl ?_
        rw [List.foldl_cons, h, hm]
    · exact Or.inr (List.mem_cons_of_mem _ (by simpa using h))

theorem pyMax_mem_cons (n : Nat) (prs : List Nat) : pyMax (n :: prs) ∈ n :: prs := by
  have hzn : Nat.max 0 n = n := Nat.max_eq_right (Nat.zero_le n)
  rcases foldl_max_mem prs (Nat.max 0 n) with h | h
  · simp only [pyMax, List.foldl_cons]
    rw [h, hzn]
    exact List.mem_cons_self _ _
  · simp only [pyMax, List.foldl_cons]
    exact List.mem_cons_of_mem _ h

theorem le_pyMax (l : List Nat) (x : Nat) (h : x ∈ l) : x ≤ pyMax l :=
  le_foldl_max l 0 x h

theorem mem_pySetList [DecidableEq α] (l : List α) (x : α) :
    x ∈ pySetList l ↔ x ∈ l := by
  suffices h : ∀ acc : List α,
      (x ∈ l.foldl (fun acc y => if y ∈ acc then acc else acc ++ [y]) acc ↔ x ∈ acc ∨ x ∈ l) by
    have := h []
    simpa [pySetList] using this
  induction l with
  | nil => intro acc; simp
  | cons y t ih =>
    intro acc
    simp only [List.foldl_cons]
    by_cases hmem : y ∈ acc
    · rw [if_pos hmem, ih acc]
      constructor
      · rintro (h | h)
        · exact Or.inl h
        · exact Or.inr (List.mem_cons_of_mem _ h)
      · rintro (h | h)
        · exact Or.inl h
        · rcases List.mem_cons.mp h with rfl | h
          · exact Or.inl hmem
          · exact Or.inr h
    · rw [if_neg hmem, ih (acc ++ [y])]
      simp only [List.mem_append, List.mem_singleton, List.mem_cons]
      tauto

theorem pyMax_pySetList (l : List Nat) : pyMax (pySetList l) = pyMax l := by
  rcases l with _ | ⟨n, t⟩
  · rfl
  · apply Nat.le_antisymm
    · rcases foldl_max_mem (pySetList (n :: t)) 0 with h | h
      · rw [pyMax, h]; exact Nat.zero_le _
      · exact le_pyMax _ _ ((mem_pySetList (n :: t) _).mp h)
    · exact le_pyMax _ _ ((mem_pySetList (n :: t) _).mpr (pyMax_mem_cons n t))

theorem updateLines_ge_two (lines : List String) :
    ∀ (i : Nat) (cur : String), updateLines (i + 2) lines cur = (lines, 0) := by
  induction lines with
  | nil => intro i cur; rfl
  | cons line rest ih =>
    intro i cur
    have htwo : ¬ (i + 2 < 2) := by omega
    have ht : transformLine (i + 2) cur line = (line, 0) := by
      unfold transformLine
      by_cases hb : pyStrip (rstripNewlines line) = ""
      · simp [hb]
      · simp [hb, htwo]
    have hr : updateLines (i + 2 + 1) rest cur = (rest, 0) := by
      have := ih (i + 1) cur
      simpa [Nat.add_assoc, Nat.add_comm, Nat.add_left_comm] using this
    simp [updateLines, ht, hr]

theorem updateLines_cons_cons (cur l₀ l₁ : String) (rest : List String) :
    updateLines 0 (l₀ :: l₁ :: rest) cur =
      ((transformLine 0 cur l₀).1 :: (transformLine 1 cur l₁).1 :: rest,
       (transformLine 0 cur l₀).2 + (transformLine 1 cur l₁).2) := by
  have h2 : updateLines 2 rest cur = (rest, 0) := by
    simpa using updateLines_ge_two rest 0 cur
  simp [updateLines, h2]

/-! ### Claim theorems -/

/-- C2 (counterexample): on `"see #12 and #3 and #12"` the extractor does
not return the deduplicated set `{3, 12}`; the duplicate 12 is kept. -/
theorem extract_pr_numbers_counterexample :
    extract_pr_numbers "see #12 and #3 and #12" ≠ [3, 12] ∧
    ¬ (extract_pr_numbers "see #12 and #3 and #12").Nodup := by
  refine ⟨by decide, by decide⟩

/-- C2 (amended): `extract_pr_numbers` returns the ascending-sorted list
of all integers matched by `#(\d+)`, duplicates retained; on
`"see #12 and #3 and #12"` it returns `[3, 12, 12]`. -/
theorem extract_pr_numbers_sorted_duplicates_kept :
    (∀ s : String, List.Sorted (· ≤ ·) (extract_pr_numbers s) ∧
       (extract_pr_numbers s).Perm (scanPR s.toList)) ∧
    extract_pr_numbers "see #12 and #3 and #12" = [3, 12, 12] := by
  refine ⟨fun s => ⟨List.sorted_insertionSort _ _, List.perm_insertionSort _ _⟩, by decide⟩

/-- C10: the conflict check is a plain substring test — any occurrence of
`=======` (or `>>>>>>> `, or `<<<<<<< Updated upstream`) anywhere in the
content, even inside a data field of an otherwise well-formed entry,
makes `check_merge_conflicts` fail and the load return nothing, although
the file contains no conflict-marker line. -/
theorem conflict_check_substring_semantics :
    (∀ content : String,
        pyIn "=======" content = true ∨ pyIn ">>>>>>> " content = true ∨
          pyIn "<<<<<<< Updated upstream" content = true →
        check_merge_conflicts content = false) ∧
    (∀ fileLines : List String,
        pyIn "=======" (String.join fileLines) = true →
        get_previous_apex_commit_from_file fileLines = none) ∧
    get_previous_apex_commit_from_file ["apex|proj|rel|rel|x=======y\n"] = none ∧
    pyStrip "apex|proj|rel|rel|x=======y\n" ≠ "=======" := by
  have h1 : ∀ content : String,
      pyIn "=======" content = true ∨ pyIn ">>>>>>> " content = true ∨
        pyIn "<<<<<<< Updated upstream" content = true →
      check_merge_conflicts content = false := by
    intro content h
    unfold check_merge_conflicts
    rcases h with h | h | h <;> simp [h]
  refine ⟨h1, ?_, by decide, by decide⟩
  intro fileLines h
  unfold get_previous_apex_commit_from_file
  simp [h1 _ (Or.inl h)]

/-- C10 (witness): a marker occurring mid-line is enough. -/
theorem conflict_check_substring_semantics_witness :
    check_merge_conflicts "data=======data" = false :=
  conflict_check_substring_semantics.1 "data=======data" (Or.inl (by decide))

/-- C4 (counterexample): PR 42 cannot be fetched from any code host, yet
resolution yields fabricated non-empty metadata instead of an empty
ResolvedPR, and PR 269 is answered by a numeric special case rather than
the generic rule. -/
theorem resolver_special_case_counterexample :
    (fetch_and_parse_pr_details 42).details.map PRDetails.fixesLinks =
      some ["https://example.com/issue-42"] ∧
    (fetch_and_parse_pr_details 42).details.map PRDetails.title =
      some "Mock PR #42 Title" ∧
    (fetch_and_parse_pr_details 269).message ≠
      "PR #269 ready for fetching (mock data provided)" := by
  refine ⟨by decide, by decide, by decide⟩

/-- C4 (amended): the resolver never contacts the code host: PR numbers
269 and 270 are special-cased with hardcoded content, and every other
number receives the fabricated mock record below. -/
theorem resolver_mock_metadata_for_other_prs (pr : Nat) (h1 : pr ≠ 269) (h2 : pr ≠ 270) :
    fetch_and_parse_pr_details pr =
      { success := true, prNumber := pr, url := create_pr_url pr,
        details := some { title := "Mock PR #" ++ toString pr ++ " Title",
                          description := "Mock description for PR #" ++ toString pr,
                          fixesLinks := ["https://example.com/issue-" ++ toString pr],
                          url := create_pr_url pr, prNumber := pr },
        message := "PR #" ++ toString pr ++ " ready for fetching (mock data provided)" } := by
  unfold fetch_and_parse_pr_details
  simp [h1, h2]

/-- C4 (witness): the amended rule applied at PR 42. -/
theorem resolver_mock_metadata_for_other_prs_witness :
    fetch_and_parse_pr_details 42 =
      { success := true, prNumber := 42, url := create_pr_url 42,
        details := some { title := "Mock PR #" ++ toString 42 ++ " Title",
                          description := "Mock description for PR #" ++ toString 42,
                          fixesLinks := ["https://example.com/issue-" ++ toString 42],
                          url := create_pr_url 42, prNumber := 42 },
        message := "PR #" ++ toString 42 ++ " ready for fetching (mock data provided)" } :=
  resolver_mock_metadata_for_other_prs 42 (by decide) (by decide)

/-- C5 (counterexample): a comment line sitting in one of the first two
positions with five pipe-delimited fields is rewritten (and counted),
not preserved verbatim. -/
theorem update_loop_rewrites_comment_line :
    updateLines 0 ["#apex|proj|rel|rel|OLD\n"] "NEW" = (["#apex|proj|rel|rel|NEW\n"], 1) ∧
    pyStartsWith (pyStrip (rstripNewlines "#apex|proj|rel|rel|OLD\n")) "#" = true := by
  refine ⟨by decide, by decide⟩

/-- C5 (amended): the update loop touches only the first two lines;
among those it rewrites exactly the non-blank lines with at least five
pipe-delimited fields whose fifth field differs from the new commit
(comment markers notwithstanding), counts each rewrite, and leaves
blank lines, short lines, matching entries, and every later line
verbatim. -/
theorem update_loop_frame_properties :
    (∀ (i : Nat) (cur : String) (lines : List String),
        updateLines (i + 2) lines cur = (lines, 0)) ∧
    (∀ (cur l₀ l₁ : String) (rest : List String),
        updateLines 0 (l₀ :: l₁ :: rest) cur =
          ((transformLine 0 cur l₀).1 :: (transformLine 1 cur l₁).1 :: rest,
           (transformLine 0 cur l₀).2 + (transformLine 1 cur l₁).2)) ∧
    (∀ (i : Nat) (cur line : String),
        pyStrip (rstripNewlines line) = "" → transformLine i cur line = (line, 0)) ∧
    (∀ (i : Nat) (cur line : String),
        (pySplitPipe (rstripNewlines line)).getD 4 "" = cur →
        transformLine i cur line = (line, 0)) ∧
    (∀ (cur line : String),
        (transformLine 0 cur line).2 = 1 →
        pyStrip (rstripNewlines line) ≠ "" ∧
        5 ≤ (pySplitPipe (rstripNewlines line)).length ∧
        (pySplitPipe (rstripNewlines line)).getD 4 "" ≠ cur ∧
        (transformLine 0 cur line).1 =
          String.intercalate "|" ((pySplitPipe (rstripNewlines line)).set 4 cur) ++ "\n") := by
  refine ⟨fun i cur lines => updateLines_ge_two lines i cur,
          updateLines_cons_cons, ?_, ?_, ?_⟩
  · intro i cur line h
    unfold transformLine
    simp [h]
  · intro i cur line h
    simp only [transformLine]
    by_cases hb : pyStrip (rstripNewlines line) = ""
    · rw [if_pos hb]
    · rw [if_neg hb]
      by_cases helig : i < 2 ∧ 5 ≤ (pySplitPipe (rstripNewlines line)).length
      · rw [if_pos helig, if_neg (not_not_intro h)]
      · rw [if_neg helig]
  · intro cur line h
    simp only [transformLine] at h ⊢
    by_cases hb : pyStrip (rstripNewlines line) = ""
    · rw [if_pos hb] at h
      exact absurd h (by simp)
    · by_cases helig : 0 < 2 ∧ 5 ≤ (pySplitPipe (rstripNewlines line)).length
      · by_cases hd : (pySplitPipe (rstripNewlines line)).getD 4 "" ≠ cur
        · refine ⟨hb, helig.2, hd, ?_⟩
          rw [if_neg hb, if_pos helig, if_pos hd]
        · rw [if_neg hb, if_pos helig, if_neg hd] at h
          exact absurd h (by simp)
      · rw [if_neg hb, if_neg helig] at h
        exact absurd h (by simp)

/-- C5 (witness): the blank-preservation and matching-entry cases of the
amended rule at concrete lines. -/
theorem update_loop_frame_properties_witness :
    transformLine 0 "NEW" "  \n" = ("  \n", 0) ∧
    transformLine 1 "NEW" "apex|proj|rel|rel|NEW\n" = ("apex|proj|rel|rel|NEW\n", 0) :=
  ⟨update_loop_frame_properties.2.2.1 0 "NEW" "  \n" (by decide),
   update_loop_frame_properties.2.2.2.1 1 "NEW" "apex|proj|rel|rel|NEW\n" (by decide)⟩

/-- C8 (counterexample): a record whose first line is a comment and whose
second line is a perfectly eligible entry yields no pointer — the claim
says eligible entries after comments are found. -/
theorem current_pointer_ignores_later_eligible_entry :
    get_previous_apex_commit_from_file ["# header\n", "apex|proj|rel|rel|OLD\n"] = none ∧
    5 ≤ (pySplitPipe (pyStrip "apex|proj|rel|rel|OLD\n")).length ∧
    pyStartsWith (pyStrip "apex|proj|rel|rel|OLD\n") "#" = false := by
  refine ⟨by decide, by decide, by decide⟩

/-- C8 (amended): the pointer is read from the first line only: when the
stripped first line is non-blank, not a comment, and has at least five
fields (and the file has no conflict markers) its fifth field is
returned; apart from the whole-content conflict check, the remaining
lines never influence the result. -/
theorem current_pointer_first_line_only :
    (∀ (l₀ : String) (rest : List String),
        check_merge_conflicts (String.join (l₀ :: rest)) = true →
        pyStrip l₀ ≠ "" →
        pyStartsWith (pyStrip l₀) "#" = false →
        5 ≤ (pySplitPipe (pyStrip l₀)).length →
        get_previous_apex_commit_from_file (l₀ :: rest) =
          some ((pySplitPipe (pyStrip l₀)).getD 4 "")) ∧
    (∀ (l₀ : String) (rest rest' : List String),
        check_merge_conflicts (String.join (l₀ :: rest)) = true →
        check_merge_conflicts (String.join (l₀ :: rest')) = true →
        get_previous_apex_commit_from_file (l₀ :: rest) =
          get_previous_apex_commit_from_file (l₀ :: rest')) := by
  constructor
  · intro l₀ rest hc hne hcomment hlen
    unfold get_previous_apex_commit_from_file
    simp [hc, hne, hcomment, hlen]
  · intro l₀ rest rest' hc hc'
    unfold get_previous_apex_commit_from_file
    simp [hc, hc']

/-- C8 (witness): the amended rule at a one-line record. -/
theorem current_pointer_first_line_only_witness :
    get_previous_apex_commit_from_file ["apex|proj|rel|rel|OLD\n"] =
      some ((pySplitPipe (pyStrip "apex|proj|rel|rel|OLD\n")).getD 4 "") :=
  current_pointer_first_line_only.1 "apex|proj|rel|rel|OLD\n" []
    (by decide) (by decide) (by decide) (by decide)

/-- C9: the largest-PR value is the numeric maximum over the whole
candidate set (`{5, 12, 7}` yields 12), and an empty candidate set makes
the largest-PR section of both the description and the commit message
entirely absent — no zero and no placeholder line. -/
theorem largest_pr_max_and_absent_when_empty :
    (∀ (n : Nat) (prs : List Nat), pyMax (n :: prs) ∈ n :: prs) ∧
    (∀ (l : List Nat) (x : Nat), x ∈ l → x ≤ pyMax l) ∧
    (∀ (prs : List Nat), pyMax (pySetList prs) = pyMax prs) ∧
    (∀ (results : List FormatCommitInfo) (fixes : List String),
        format_commit_description results fixes [] =
          String.intercalate "\n" (formatCommitSection results ++ formatFixesSection fixes)) ∧
    (∀ (results : List FormatCommitInfo) (fixes : List String) (n : Nat) (prs : List Nat),
        format_commit_description results fixes (n :: prs) =
          String.intercalate "\n"
            (formatCommitSection results ++
             ["BIGGEST PR: " ++ create_pr_url (pyMax (n :: prs)), ""] ++
             formatFixesSection fixes)) ∧
    mainLargestPrIds [] = [] ∧
    mainLargestPrIds [5, 12, 7] = ["https://github.com/ROCm/apex/pull/12"] ∧
    (∀ (t : String) (msgs fixes : List String),
        build_commit_message t msgs [] fixes =
          String.intercalate "\n"
            ([t, ""] ++
             (if msgs = [] then []
              else "Commit Messages:" :: msgs.map (fun m => "- " ++ m) ++ [""]) ++
             (if fixes = [] then []
              else "Fixes:" :: fixes.map (fun l => "- " ++ l)))) := by
  refine ⟨pyMax_mem_cons, le_pyMax, pyMax_pySetList, ?_, ?_, rfl, by decide, ?_⟩
  · intro results fixes
    simp [format_commit_description, formatBiggestSection]
  · intro results fixes n prs
    simp [format_commit_description, formatBiggestSection]
  · intro t msgs fixes
    simp [build_commit_message]

/-- C9 (witness): the maximum bound applied inside the example candidate
set `{5, 12, 7}`. -/
theorem largest_pr_max_witness : 7 ≤ pyMax [5, 12, 7] :=
  largest_pr_max_and_absent_when_empty.2.1 [5, 12, 7] 7 (by decide)

/-- C1 (counterexample): in the end-to-end scenario — one commit whose
message contains `fixes: https://tracker/ISSUE-1` and references PR 42 —
the aggregated fix-link set is `{https://example.com/issue-42}` (the
resolver's fabricated link), not `{https://tracker/ISSUE-1,
https://tracker/ISSUE-2}`: the link written in the commit message itself
is never extracted. -/
theorem scenario_fixes_links_counterexample :
    (update_related_commits_file envScenario false).allFixesLinks =
      ["https://example.com/issue-42"] ∧
    "https://tracker/ISSUE-1" ∉ (update_related_commits_file envScenario false).allFixesLinks ∧
    "https://tracker/ISSUE-2" ∉ (update_related_commits_file envScenario false).allFixesLinks := by
  refine ⟨by decide, by decide, by decide⟩

/-- C1 (amended): every aggregated fix-link comes from a resolved PR —
`processPRs` contributes exactly the resolver results' links, and the
run-level aggregation is their deduplicated (first occurrence kept)
union; fix-links written directly in a commit message are not collected.
In the scenario environment the aggregate is the resolver's mock link. -/
theorem aggregated_fixes_links_from_resolver_only :
    (∀ (prs : List Nat) (cr : CommitResult),
        (processPRs prs cr).fixesLinks =
          cr.fixesLinks ++ (prs.map prContribution).flatten) ∧
    (∀ results : List CommitResult, (collectFixesLinks results).Nodup) ∧
    (∀ (results : List CommitResult) (l : String),
        l ∈ collectFixesLinks results ↔ ∃ r, r ∈ results ∧ l ∈ r.fixesLinks) ∧
    (update_related_commits_file envScenario false).allFixesLinks =
      ["https://example.com/issue-42"] :=
  ⟨processPRs_fixesLinks, collectFixesLinks_nodup, mem_collectFixesLinks, by decide⟩

/-- C3 (counterexample): in a run where two commits both reference PR 42
the resolver is invoked twice for it, not once. -/
theorem resolver_not_memoized_counterexample :
    (update_related_commits_file envTwoCommits false).resolverTrace = [42, 42] ∧
    ((update_related_commits_file envTwoCommits false).resolverTrace).count 42 = 2 := by
  refine ⟨by decide, by decide⟩

/-- C3 (amended): PR resolution is not memoized — each commit's analysis
invokes the resolver once per PR-number occurrence in that commit's
message, so across a run the invocation count for a number is the sum of
its per-commit occurrence counts (all invocations of a number return the
same result, the resolver being a pure function of it). -/
theorem resolver_invoked_once_per_occurrence :
    (∀ (detailsOpt fullMessageOpt : Option String) (commitHash : String),
        (analyze_commit_and_prs detailsOpt fullMessageOpt commitHash).2 = [] ∨
        ∃ msg, fullMessageOpt = some msg ∧
          (analyze_commit_and_prs detailsOpt fullMessageOpt commitHash).2 =
            pySorted (extract_pr_numbers msg)) ∧
    (∀ (hashes : List String) (d fm : String → Option String) (pr : Nat),
        ((hashes.map fun h =>
            (analyze_commit_and_prs (d h) (fm h) h).2).flatten).count pr =
          ((hashes.map fun h =>
            ((analyze_commit_and_prs (d h) (fm h) h).2).count pr)).sum) := by
  constructor
  · intro detailsOpt fullMessageOpt commitHash
    cases detailsOpt with
    | none => left; rfl
    | some det =>
      cases fullMessageOpt with
      | none => left; rfl
      | some msg =>
        simp only [analyze_commit_and_prs]
        by_cases hempty : det = "" ∨ msg = ""
        · left; simp [hempty]
        · by_cases hlen : 4 ≤ (pySplitPipe det).length
          · right
            exact ⟨msg, rfl, by simp [hempty, hlen]⟩
          · left; simp [hempty, hlen]
  · intro hashes d fm pr
    rw [List.count_flatten, List.map_map]
    rfl

/-- C6: a record file one of whose lines is exactly `<<<<<<< HEAD` (with
or without its trailing newline, as `readlines` yields it) makes the
conflict check fail, makes the load return no pointer without reading
any structured field, and makes the whole run stop as a failure — no
resolver call is made and nothing is written. -/
theorem conflict_marker_line_halts_load (env : GitEnv) (m : Bool) (l : String)
    (hmem : l ∈ env.fileLines)
    (hline : l = "<<<<<<< HEAD" ∨ l = "<<<<<<< HEAD\n") :
    check_merge_conflicts (String.join env.fileLines) = false ∧
    get_previous_apex_commit_from_file env.fileLines = none ∧
    update_related_commits_file env m = failedRun := by
  have hpre : ("<<<<<<< HEAD" : String).data <+: l.data := by
    rcases hline with rfl | rfl
    · exact List.prefix_refl _
    · exact ⟨['\n'], by decide⟩
  have hin : pyIn "<<<<<<< HEAD" (String.join env.fileLines) = true :=
    pyIn_of_line_mem hmem hpre
  have hc : check_merge_conflicts (String.join env.fileLines) = false := by
    unfold check_merge_conflicts
    simp [hin]
  have hg : get_previous_apex_commit_from_file env.fileLines = none := by
    unfold get_previous_apex_commit_from_file
    simp [hc]
  refine ⟨hc, hg, ?_⟩
  unfold update_related_commits_file
  rw [hg]

/-- C6 (witness): the conflict environment above. -/
theorem conflict_marker_line_halts_load_witness :
    check_merge_conflicts (String.join envConflicted.fileLines) = false ∧
    get_previous_apex_commit_from_file envConflicted.fileLines = none ∧
    update_related_commits_file envConflicted true = failedRun :=
  conflict_marker_line_halts_load envConflicted true "<<<<<<< HEAD\n"
    (by decide) (Or.inr rfl)

/-- C7: dry-run (`enable_actual_update = False`) and apply mode perform
the identical computation — success flag, PR candidates, commit results,
fix-links, descriptions, changed-entry count and resolver invocations
all agree — and differ only in the final write: dry-run never writes,
while in a drifted run apply persists exactly the in-memory updated
lines whenever at least one entry changed (and also does not write when
nothing changed). -/
theorem dry_run_and_apply_same_computation (env : GitEnv) :
    ((update_related_commits_file env true).success =
        (update_related_commits_file env false).success ∧
     (update_related_commits_file env true).prsToFetch =
        (update_related_commits_file env false).prsToFetch ∧
     (update_related_commits_file env true).allCommitResults =
        (update_related_commits_file env false).allCommitResults ∧
     (update_related_commits_file env true).allFixesLinks =
        (update_related_commits_file env false).allFixesLinks ∧
     (update_related_commits_file env true).allDescriptions =
        (update_related_commits_file env false).allDescriptions ∧
     (update_related_commits_file env true).updatedCount =
        (update_related_commits_file env false).updatedCount ∧
     (update_related_commits_file env true).resolverTrace =
        (update_related_commits_file env false).resolverTrace) ∧
    (update_related_commits_file env false).writtenLines = none ∧
    (∀ p c : String,
        get_previous_apex_commit_from_file env.fileLines = some p → p ≠ "" →
        env.currentApexCommit = some c → c ≠ "" → p ≠ c →
        (0 < (updateLines 0 env.fileLines c).2 →
            (update_related_commits_file env true).writtenLines =
              some (updateLines 0 env.fileLines c).1) ∧
        ((updateLines 0 env.fileLines c).2 = 0 →
            (update_related_commits_file env true).writtenLines = none)) := by
  cases hg : get_previous_apex_commit_from_file env.fileLines with
  | none =>
    refine ⟨?_, ?_, ?_⟩
    · refine ⟨?_, ?_, ?_, ?_, ?_, ?_, ?_⟩ <;> simp [update_related_commits_file, hg]
    · simp [update_related_commits_file, hg, failedRun]
    · intro p c hp
      exact Option.noConfusion hp
  | some previous =>
    by_cases hpe : previous = ""
    · refine ⟨?_, ?_, ?_⟩
      · refine ⟨?_, ?_, ?_, ?_, ?_, ?_, ?_⟩ <;> simp [update_related_commits_file, hg, hpe]
      · simp [update_related_commits_file, hg, hpe, failedRun]
      · intro p c hp hpne
        injection hp with h
        subst h
        exact absurd hpe hpne
    · cases hc : env.currentApexCommit with
      | none =>
        refine ⟨?_, ?_, ?_⟩
        · refine ⟨?_, ?_, ?_, ?_, ?_, ?_, ?_⟩ <;> simp [update_related_commits_file, hg, hpe, hc]
        · simp [update_related_commits_file, hg, hpe, hc, failedRun]
        · intro p c hp hpne hcc
          exact Option.noConfusion hcc
      | some current =>
        by_cases hce : current = ""
        · refine ⟨?_, ?_, ?_⟩
          · refine ⟨?_, ?_, ?_, ?_, ?_, ?_, ?_⟩ <;>
              simp [update_related_commits_file, hg, hpe, hc, hce]
          · simp [update_related_commits_file, hg, hpe, hc, hce, failedRun]
          · intro p c hp hpne hcc hcne
            injection hcc with h
            subst h
            exact absurd hce hcne
        · by_cases heq : previous = current
          · refine ⟨?_, ?_, ?_⟩
            · refine ⟨?_, ?_, ?_, ?_, ?_, ?_, ?_⟩ <;>
                simp [update_related_commits_file, hg, hpe, hc, hce, heq]
            · simp [update_related_commits_file, hg, hpe, hc, hce, heq, upToDateRun]
            · intro p c hp hpne hcc hcne hneq
              injection hp with h1
              injection hcc with h2
              subst h1
              subst h2
              exact absurd heq hneq
          · by_cases hz : (updateLines 0 env.fileLines current).2 = 0
            · refine ⟨?_, ?_, ?_⟩
              · refine ⟨?_, ?_, ?_, ?_, ?_, ?_, ?_⟩ <;>
                  simp [update_related_commits_file, hg, hpe, hc, hce, heq, hz]
              · simp [update_related_commits_file, hg, hpe, hc, hce, heq, hz]
              · intro p c hp hpne hcc hcne hneq
                injection hcc with h2
                subst h2
                constructor
                · intro h0
                  rw [hz] at h0
                  exact absurd h0 (by simp)
                · intro _
                  simp [update_related_commits_file, hg, hpe, hc, hce, heq, hz]
            · refine ⟨?_, ?_, ?_⟩
              · refine ⟨?_, ?_, ?_, ?_, ?_, ?_, ?_⟩ <;>
                  simp [update_related_commits_file, hg, hpe, hc, hce, heq, hz]
              · simp [update_related_commits_file, hg, hpe, hc, hce, heq, hz]
              · intro p c hp hpne hcc hcne hneq
                injection hcc with h2
                subst h2
                constructor
                · intro _
                  simp [update_related_commits_file, hg, hpe, hc, hce, heq, hz]
                · intro h0
                  exact absurd h0 hz

/-- C7 (witness): in the concrete drifted environment both entries
change, apply mode persists the updated lines, and dry-run does not. -/
theorem dry_run_and_apply_same_computation_witness :
    (update_related_commits_file envDrifted false).writtenLines = none ∧
    (update_related_commits_file envDrifted true).writtenLines =
      some (updateLines 0 envDrifted.fileLines "NEWCOMMIT").1 :=
  ⟨(dry_run_and_apply_same_computation envDrifted).2.1,
   ((dry_run_and_apply_same_computation envDrifted).2.2 "OLDCOMMIT" "NEWCOMMIT"
      (by decide) (by decide) (by decide) (by decide) (by decide)).1 (by decide)⟩
